import Mathlib

set_option autoImplicit false

/-! Verification of the foodgram recipe backend: a shallow embedding of the
recipe-composition, membership and shopping-list subsystem
(`backend/foodgram/recipes/models.py`, `recipes/serializers.py`,
`recipes/views.py`, `users/views.py`) together with proofs of its
specified properties. -/

namespace Foodgram

/-- Catalog ingredient row (`recipes/models.py`, class `Ingredient`):
a name and a measurement unit, unique as a pair. -/
structure Ingredient where
  id : Nat
  name : String
  measurement_unit : String
deriving DecidableEq

/-- Tag row (`recipes/models.py`, class `Tag`). -/
structure Tag where
  id : Nat
  name : String
  slug : String
deriving DecidableEq

/-- Recipe row (`recipes/models.py`, class `Recipe`): scalar columns only;
tag and ingredient associations live in separate tables below.  The image
column is irrelevant to every claim and omitted; `author` is a user id. -/
structure Recipe where
  id : Nat
  author : Nat
  name : String
  text : String
  cooking_time : Int
deriving DecidableEq

/-- Association row (`recipes/models.py`, class `RecipeIngredient`): one
quantified ingredient line of one recipe. -/
structure RecipeIngredient where
  recipe : Nat
  ingredient : Nat
  amount : Int
deriving DecidableEq

/-- The relational store: one list per table.  `favorites`, `shoppingCart`
and `follows` are the (user, recipe) resp. (user, following) pair tables of
`Favorite`, `ShoppingCart` (`recipes/models.py`) and `Follow`
(`users/models.py`); `recipeTags` is the automatic many-to-many table of
`Recipe.tags`, rows (recipe id, tag id). -/
structure DB where
  users : List Nat
  ingredients : List Ingredient
  tags : List Tag
  recipes : List Recipe
  recipeTags : List (Nat × Nat)
  recipeIngredients : List RecipeIngredient
  favorites : List (Nat × Nat)
  shoppingCart : List (Nat × Nat)
  follows : List (Nat × Nat)
deriving DecidableEq

/-- One entry of the `ingredients` request payload
(`RecipeIngredientSerializer`): an ingredient id and an amount. -/
structure IngredientInput where
  id : Nat
  amount : Int
deriving DecidableEq

/-- Writable payload of `RecipeCreateSerializer` (fields `tags`,
`ingredients`, `name`, `text`, `cooking_time`; the base64 image field is
irrelevant to every claim and omitted). -/
structure RecipeInput where
  name : String
  text : String
  cooking_time : Int
  tags : List Nat
  ingredients : List IngredientInput
deriving DecidableEq

/-- Modelled from the spec: `foodgram/constants.py` is imported by
`recipes/models.py` but is not among the sources.  The spec fixes the lower
bound at 1 ("minimum 1; maximum a configured ceiling"). -/
def MIN_AMOUNT : Int := 1

/-- Modelled from the spec: `foodgram/constants.py` is not among the
sources; the validator messages in `recipes/models.py` name the ceiling
32,000 for both amount and cooking time. -/
def MAX_AMOUNT : Int := 32000

/-- Modelled from the spec: the spec's name for the lower cooking-time
bound; the code reuses `MIN_AMOUNT` for it. -/
def MIN_COOKING_TIME : Int := 1

/-- Modelled from the spec: the spec's name for the upper cooking-time
bound; the model's validator message says cooking time cannot exceed
32,000 minutes. -/
def MAX_COOKING_TIME : Int := 32000

/-- Test whether a recipe row with the given primary key exists
(`Recipe.objects.filter(pk=...)`, `get_object_or_404(Recipe, pk=pk)`). -/
def recipe_exists (db : DB) (rid : Nat) : Bool :=
  db.recipes.any (fun r => r.id == rid)

/-- Test whether a user row exists (`get_object_or_404` on the user id of
`UsersViewSet.subscribe`). -/
def user_exists (db : DB) (u : Nat) : Bool :=
  db.users.contains u

/-- Field validator `RecipeIngredientSerializer.validate_id`: the
referenced ingredient must exist in the catalog. -/
def validate_id (db : DB) (v : Nat) : Bool :=
  db.ingredients.any (fun ing => ing.id == v)

/-- Field validator `RecipeIngredientSerializer.validate_amount`: rejects
exactly the amounts with `value < 1`.  No upper bound is checked here. -/
def validate_amount (v : Int) : Bool :=
  !(v < 1)

/-- The validator list declared on `Recipe.cooking_time`
(`recipes/models.py` lines 79-87): `MinValueValidator(MIN_AMOUNT)` and
`MinValueValidator(MAX_AMOUNT)` — the second is a `MinValueValidator` even
though its message reads "cooking time cannot exceed 32,000 minutes".  A
value passes iff it satisfies both declared validators. -/
def cooking_time_validators (v : Int) : Bool :=
  decide (MIN_AMOUNT ≤ v) && decide (MAX_AMOUNT ≤ v)

/-- The `tags` field (`PrimaryKeyRelatedField(queryset=Tag.objects.all())`):
each submitted tag id must resolve to a catalog tag. -/
def tag_id_exists (db : DB) (t : Nat) : Bool :=
  db.tags.any (fun tg => tg.id == t)

/-- Object-level `RecipeCreateSerializer.validate`: the ingredient list is
non-empty and free of duplicate ingredient ids, and the tag list is
non-empty and free of duplicate ids (the source compares `len(xs)` with
`len(set(xs))`, i.e. tests duplicate-freedom). -/
def validate (inp : RecipeInput) : Bool :=
  !inp.ingredients.isEmpty &&
  decide ((inp.ingredients.map (fun l => l.id)).Nodup) &&
  !inp.tags.isEmpty &&
  decide inp.tags.Nodup

/-- Full `is_valid` run of `RecipeCreateSerializer`: field-level validation
(tag resolution, per-line `validate_id` and `validate_amount`, the declared
`cooking_time` validators carried onto the serializer field) and then the
object-level `validate`.  The call raises `ValidationError` iff any part
fails. -/
def run_validation (db : DB) (inp : RecipeInput) : Bool :=
  inp.tags.all (fun t => tag_id_exists db t) &&
  inp.ingredients.all (fun l => validate_id db l.id && validate_amount l.amount) &&
  cooking_time_validators inp.cooking_time &&
  validate inp

/-- Next autoincrement primary key for the recipe table. -/
def freshRecipeId (db : DB) : Nat :=
  (db.recipes.foldl (fun m r => max m r.id) 0) + 1

/-- `RecipeCreateSerializer.create` behind the view's
`is_valid(raise_exception=True)`: on validation failure nothing is written;
on success the recipe row is inserted, `recipe.tags.set(tags)` attaches the
tag set, and one `RecipeIngredient` row is created per input line.  Returns
the post-call store and the result (the new recipe id or the error). -/
def createRecipe (db : DB) (author : Nat) (inp : RecipeInput) :
    DB × Except String Nat :=
  if run_validation db inp then
    let rid := freshRecipeId db
    ({ db with
        recipes := db.recipes ++ [⟨rid, author, inp.name, inp.text, inp.cooking_time⟩],
        recipeTags := db.recipeTags ++ inp.tags.map (fun t => (rid, t)),
        recipeIngredients := db.recipeIngredients ++
          inp.ingredients.map (fun l => ⟨rid, l.id, l.amount⟩) },
      Except.ok rid)
  else (db, Except.error "ValidationError")

/-- `RecipeCreateSerializer.update` behind the view's object lookup
(404 first) and `is_valid`: the scalar columns are overwritten,
`instance.tags.set(tags)` replaces the whole tag set, and
`instance.recipe_ingredients.all().delete()` followed by per-line creation
replaces the whole ingredient-line set. -/
def updateRecipe (db : DB) (rid : Nat) (inp : RecipeInput) :
    DB × Except String Unit :=
  if recipe_exists db rid then
    if run_validation db inp then
      ({ db with
          recipes := db.recipes.map (fun r =>
            if r.id = rid then
              { r with name := inp.name, text := inp.text,
                       cooking_time := inp.cooking_time }
            else r),
          recipeTags := db.recipeTags.filter (fun p => p.1 != rid) ++
            inp.tags.map (fun t => (rid, t)),
          recipeIngredients := db.recipeIngredients.filter (fun ri => ri.recipe != rid) ++
            inp.ingredients.map (fun l => ⟨rid, l.id, l.amount⟩) },
        Except.ok ())
    else (db, Except.error "ValidationError")
  else (db, Except.error "NotFound")

/-- Recipe deletion (`ModelViewSet.destroy`): the row is removed and, per
the `on_delete=models.CASCADE` declarations on `RecipeIngredient.recipe`,
`Favorite.recipe` and `ShoppingCart.recipe` and the automatic many-to-many
table, every row referencing the recipe is removed with it. -/
def destroyRecipe (db : DB) (rid : Nat) : DB :=
  { db with
      recipes := db.recipes.filter (fun r => r.id != rid),
      recipeTags := db.recipeTags.filter (fun p => p.1 != rid),
      recipeIngredients := db.recipeIngredients.filter (fun ri => ri.recipe != rid),
      favorites := db.favorites.filter (fun p => p.2 != rid),
      shoppingCart := db.shoppingCart.filter (fun p => p.2 != rid) }

/-- One rendered entry of `RecipeSerializer.get_ingredients`. -/
structure IngredientView where
  id : Nat
  name : String
  measurement_unit : String
  amount : Int
deriving DecidableEq

/-- Loop body of `RecipeSerializer.get_ingredients`: one line expanded
through the catalog to `{id, name, measurement_unit, amount}`. -/
def renderLine (db : DB) (ri : RecipeIngredient) : Option IngredientView :=
  (db.ingredients.find? (fun ing => ing.id == ri.ingredient)).map (fun ing =>
    ⟨ing.id, ing.name, ing.measurement_unit, ri.amount⟩)

/-- Read path `RecipeSerializer.get_ingredients`: the recipe's ingredient
lines, each expanded through the catalog. -/
def get_ingredients (db : DB) (rid : Nat) : List IngredientView :=
  (db.recipeIngredients.filter (fun ri => ri.recipe == rid)).filterMap
    (renderLine db)

/-- Tag ids attached to a recipe (rendered by `TagSerializer` on the read
path). -/
def recipeTagIds (db : DB) (rid : Nat) : List Nat :=
  (db.recipeTags.filter (fun p => p.1 == rid)).map (fun p => p.2)

/-- The (ingredient id, amount) pairs of a recipe's ingredient-line set. -/
def recipeIngredientPairs (db : DB) (rid : Nat) : List (Nat × Int) :=
  (db.recipeIngredients.filter (fun ri => ri.recipe == rid)).map (fun ri =>
    (ri.ingredient, ri.amount))

/-- GET branch of `RecipeViewSet.favorite` / `get_is_favorited`: membership
query on the favorites relation. -/
def favorite_get (db : DB) (user rid : Nat) : Bool :=
  decide ((user, rid) ∈ db.favorites)

/-- POST branch of `RecipeViewSet.favorite`: 404 on a missing recipe, 400
when the pair already exists, otherwise a single row insert. -/
def favorite_post (db : DB) (user rid : Nat) : DB × Except String Unit :=
  if recipe_exists db rid then
    if decide ((user, rid) ∈ db.favorites) then
      (db, Except.error "AlreadyExists")
    else
      ({ db with favorites := db.favorites ++ [(user, rid)] }, Except.ok ())
  else (db, Except.error "NotFound")

/-- DELETE branch of `RecipeViewSet.favorite`: 404 on a missing recipe, 400
when the pair is absent, otherwise the matching rows are deleted. -/
def favorite_erase (db : DB) (user rid : Nat) : DB × Except String Unit :=
  if recipe_exists db rid then
    if decide ((user, rid) ∈ db.favorites) then
      ({ db with favorites := db.favorites.filter (fun p => p != (user, rid)) },
        Except.ok ())
    else (db, Except.error "NotFound")
  else (db, Except.error "NotFound")

/-- GET branch of `RecipeViewSet.shopping_cart` / `get_is_in_shopping_cart`. -/
def shopping_cart_get (db : DB) (user rid : Nat) : Bool :=
  decide ((user, rid) ∈ db.shoppingCart)

/-- POST branch of `RecipeViewSet.shopping_cart`: same shape as the
favorites relation. -/
def shopping_cart_post (db : DB) (user rid : Nat) : DB × Except String Unit :=
  if recipe_exists db rid then
    if decide ((user, rid) ∈ db.shoppingCart) then
      (db, Except.error "AlreadyExists")
    else
      ({ db with shoppingCart := db.shoppingCart ++ [(user, rid)] }, Except.ok ())
  else (db, Except.error "NotFound")

/-- DELETE branch of `RecipeViewSet.shopping_cart`. -/
def shopping_cart_erase (db : DB) (user rid : Nat) : DB × Except String Unit :=
  if recipe_exists db rid then
    if decide ((user, rid) ∈ db.shoppingCart) then
      ({ db with shoppingCart := db.shoppingCart.filter (fun p => p != (user, rid)) },
        Except.ok ())
    else (db, Except.error "NotFound")
  else (db, Except.error "NotFound")

/-- `UsersViewSet.subscribe`: object lookup (404) first, then the
self-follow check, then the already-following check, then a single insert. -/
def subscribe (db : DB) (user target : Nat) : DB × Except String Unit :=
  if user_exists db target then
    if user = target then (db, Except.error "SelfFollow")
    else if decide ((user, target) ∈ db.follows) then
      (db, Except.error "AlreadyFollowing")
    else ({ db with follows := db.follows ++ [(user, target)] }, Except.ok ())
  else (db, Except.error "NotFound")

/-- Rows selected by
`RecipeIngredient.objects.filter(recipe__in_shopping_cart__user=user)`:
the ingredient lines of every recipe in the user's cart. -/
def cartLines (db : DB) (user : Nat) : List RecipeIngredient :=
  db.recipeIngredients.filter (fun ri => decide ((user, ri.recipe) ∈ db.shoppingCart))

/-- The `values('ingredient__name', 'ingredient__measurement_unit')` key of
one joined row. -/
def lineKey (db : DB) (ri : RecipeIngredient) : Option (String × String) :=
  (db.ingredients.find? (fun ing => ing.id == ri.ingredient)).map (fun ing =>
    (ing.name, ing.measurement_unit))

/-- The joined rows of the cart, reduced to (key, amount) pairs. -/
def keyAmounts (db : DB) (user : Nat) : List ((String × String) × Int) :=
  (cartLines db user).filterMap (fun ri =>
    (lineKey db ri).map (fun k => (k, ri.amount)))

/-- Adds one row's amount into the running per-(name, unit) sums: the first
group with the same key absorbs the amount, otherwise a new group is
appended. -/
def addLine (acc : List ((String × String) × Int)) (k : String × String)
    (a : Int) : List ((String × String) × Int) :=
  match acc with
  | [] => [(k, a)]
  | (k', s) :: rest =>
      if k' = k then (k', s + a) :: rest else (k', s) :: addLine rest k a

/-- The `GROUP BY (name, unit)` with `SUM(amount)` of
`download_shopping_cart`, in row order. -/
def shoppingListGroups (db : DB) (user : Nat) :
    List ((String × String) × Int) :=
  (keyAmounts db user).foldl (fun acc p => addLine acc p.1 p.2) []

/-- One report line, `f'{name}: {amount} {unit}'`. -/
def formatLine (p : (String × String) × Int) : String :=
  p.1.1 ++ ": " ++ toString p.2 ++ " " ++ p.1.2

/-- `RecipeViewSet.download_shopping_cart`: the header followed by one line
per aggregation group. -/
def download_shopping_cart (db : DB) (user : Nat) : String :=
  "Список покупок:\n\n" ++
    String.intercalate "\n" ((shoppingListGroups db user).map formatLine)

/-- The amount total carried by a key in a list of (key, amount) pairs. -/
def sumForKey (xs : List ((String × String) × Int)) (k : String × String) : Int :=
  ((xs.filter (fun p => p.1 = k)).map (fun p => p.2)).sum

/-- One mutating call against the store, for stating properties of
arbitrary operation sequences. -/
inductive Op where
  | createR (author : Nat) (inp : RecipeInput)
  | updateR (rid : Nat) (inp : RecipeInput)
  | destroyR (rid : Nat)
  | favPost (user rid : Nat)
  | favErase (user rid : Nat)
  | cartPost (user rid : Nat)
  | cartErase (user rid : Nat)
  | subPost (user target : Nat)

/-- The post-state of one call. -/
def step (db : DB) : Op → DB
  | .createR a inp => (createRecipe db a inp).1
  | .updateR rid inp => (updateRecipe db rid inp).1
  | .destroyR rid => destroyRecipe db rid
  | .favPost u r => (favorite_post db u r).1
  | .favErase u r => (favorite_erase db u r).1
  | .cartPost u r => (shopping_cart_post db u r).1
  | .cartErase u r => (shopping_cart_erase db u r).1
  | .subPost u t => (subscribe db u t).1

/-- The store after a sequence of calls. -/
def run (db : DB) (ops : List Op) : DB := ops.foldl step db

/-- Referential integrity of the recipe-referencing tables: every
ingredient line, tag attachment, favorite row and cart row references an
existing recipe. -/
def refIntegrityB (db : DB) : Bool :=
  db.recipeIngredients.all (fun ri => recipe_exists db ri.recipe) &&
  db.recipeTags.all (fun p => recipe_exists db p.1) &&
  db.favorites.all (fun p => recipe_exists db p.2) &&
  db.shoppingCart.all (fun p => recipe_exists db p.2)

/-- Number of rows equal to a given (user, recipe) pair. -/
def pairCount (l : List (Nat × Nat)) (p : Nat × Nat) : Nat :=
  (l.filter (fun q => q = p)).length

/-- Store with two recipes in user 1's cart, each holding a (Salt, g) line
(amounts 5 and 3). -/
def saltDB : DB :=
  { users := [1],
    ingredients := [⟨1, "Salt", "g"⟩],
    tags := [⟨1, "breakfast", "breakfast"⟩],
    recipes := [⟨1, 1, "soup", "", 32000⟩, ⟨2, 1, "stew", "", 32000⟩],
    recipeTags := [(1, 1), (2, 1)],
    recipeIngredients := [⟨1, 1, 5⟩, ⟨2, 1, 3⟩],
    favorites := [],
    shoppingCart := [(1, 1), (1, 2)],
    follows := [] }

/-- Same store with user 1's cart emptied. -/
def emptyCartDB : DB :=
  { saltDB with shoppingCart := [] }

/-- Store whose cart recipes carry the same ingredient name under two
different units. -/
def saltUnitsDB : DB :=
  { users := [1],
    ingredients := [⟨1, "Salt", "g"⟩, ⟨2, "Salt", "kg"⟩],
    tags := [⟨1, "breakfast", "breakfast"⟩],
    recipes := [⟨1, 1, "soup", "", 32000⟩, ⟨2, 1, "stew", "", 32000⟩],
    recipeTags := [(1, 1), (2, 1)],
    recipeIngredients := [⟨1, 1, 5⟩, ⟨2, 2, 3⟩],
    favorites := [],
    shoppingCart := [(1, 1), (1, 2)],
    follows := [] }

/-- Store holding one recipe with ingredient lines {(1, 5), (2, 6)}. -/
def w2db : DB :=
  { users := [7],
    ingredients := [⟨1, "A", "g"⟩, ⟨2, "B", "g"⟩, ⟨3, "C", "g"⟩],
    tags := [⟨1, "breakfast", "breakfast"⟩],
    recipes := [⟨1, 7, "r", "t", 32000⟩],
    recipeTags := [(1, 1)],
    recipeIngredients := [⟨1, 1, 5⟩, ⟨1, 2, 6⟩],
    favorites := [],
    shoppingCart := [],
    follows := [] }

/-- Update payload replacing the ingredient-line set with {(3, 4)}. -/
def w2inp : RecipeInput :=
  { name := "r2", text := "t", cooking_time := 32000,
    tags := [1], ingredients := [⟨3, 4⟩] }

/-- Store with an empty recipe table and a three-ingredient catalog. -/
def w3db : DB :=
  { users := [7],
    ingredients := [⟨1, "A", "g"⟩, ⟨2, "B", "g"⟩, ⟨3, "C", "g"⟩],
    tags := [⟨1, "breakfast", "breakfast"⟩, ⟨2, "dinner", "dinner"⟩],
    recipes := [],
    recipeTags := [],
    recipeIngredients := [],
    favorites := [],
    shoppingCart := [],
    follows := [] }

/-- Creation payload with two ingredient lines and two tags. -/
def w3inp : RecipeInput :=
  { name := "pie", text := "bake", cooking_time := 32000,
    tags := [1, 2], ingredients := [⟨1, 200⟩, ⟨2, 3⟩] }

/-- Store for the duplicate-tag rejection example. -/
def w4db : DB := w2db

/-- Payload carrying the same tag id twice. -/
def w4inp : RecipeInput :=
  { name := "r2", text := "t", cooking_time := 32000,
    tags := [1, 1], ingredients := [⟨3, 4⟩] }

/-- Minimal valid store used to evaluate the bound-checking slips. -/
def boundsDB : DB :=
  { users := [7],
    ingredients := [⟨1, "Salt", "g"⟩],
    tags := [⟨1, "breakfast", "breakfast"⟩],
    recipes := [],
    recipeTags := [],
    recipeIngredients := [],
    favorites := [],
    shoppingCart := [],
    follows := [] }

/-- Payload whose single ingredient line carries amount 32001, above the
configured ceiling. -/
def overAmountInp : RecipeInput :=
  { name := "r", text := "t", cooking_time := 32000,
    tags := [1], ingredients := [⟨1, 32001⟩] }

/-- Payload with cooking time 32500, above the configured ceiling. -/
def ctHighInp : RecipeInput :=
  { name := "r", text := "t", cooking_time := 32500,
    tags := [1], ingredients := [⟨1, 5⟩] }

/-- Payload with cooking time 10, inside the configured bounds. -/
def ctLowInp : RecipeInput :=
  { name := "r", text := "t", cooking_time := 10,
    tags := [1], ingredients := [⟨1, 5⟩] }

/-- Store for the all-or-nothing example. -/
def w7db : DB := w3db

/-- Payload whose second ingredient line references the unknown id 99. -/
def w7inp : RecipeInput :=
  { name := "pie", text := "bake", cooking_time := 32000,
    tags := [1], ingredients := [⟨1, 200⟩, ⟨99, 3⟩] }

/-- Store with one recipe, favorited and carted by user 5 but not by
user 6. -/
def w8db : DB :=
  { users := [5, 6, 7],
    ingredients := [⟨1, "A", "g"⟩],
    tags := [⟨1, "breakfast", "breakfast"⟩],
    recipes := [⟨1, 7, "r", "t", 32000⟩],
    recipeTags := [(1, 1)],
    recipeIngredients := [⟨1, 1, 5⟩],
    favorites := [(5, 1)],
    shoppingCart := [(5, 1)],
    follows := [] }

/-- Store where user 1 already has a (1, 1) row in the follow relation. -/
def w9db : DB :=
  { users := [1, 2],
    ingredients := [],
    tags := [],
    recipes := [],
    recipeTags := [],
    recipeIngredients := [],
    favorites := [],
    shoppingCart := [],
    follows := [(1, 1)] }

/-- Empty-recipe store for the cascade example. -/
def w10db : DB := boundsDB

/-- Valid creation payload for the cascade example. -/
def w10inp : RecipeInput :=
  { name := "r", text := "t", cooking_time := 32000,
    tags := [1], ingredients := [⟨1, 5⟩] }

/-- Create a recipe, cart and favorite it, then delete it. -/
def w10ops : List Op :=
  [Op.createR 7 w10inp, Op.cartPost 7 1, Op.favPost 7 1, Op.destroyR 1]

lemma filter_recipe_eq_of_filter_ne (l : List RecipeIngredient) (rid : Nat) :
    (l.filter (fun ri => ri.recipe != rid)).filter (fun ri => ri.recipe == rid) = [] := by
  induction l with
  | nil => rfl
  | cons a t ih =>
      by_cases hr : a.recipe = rid <;>
        simp [List.filter_cons, hr, ih]

lemma filter_fst_eq_of_filter_ne (l : List (Nat × Nat)) (rid : Nat) :
    (l.filter (fun p => p.1 != rid)).filter (fun p => p.1 == rid) = [] := by
  induction l with
  | nil => rfl
  | cons a t ih =>
      by_cases hr : a.1 = rid <;>
        simp [List.filter_cons, hr, ih]

lemma filter_lines_map (rid : Nat) (ls : List IngredientInput) :
    ((ls.map (fun l => (⟨rid, l.id, l.amount⟩ : RecipeIngredient))).filter
        (fun ri => ri.recipe == rid)) =
      ls.map (fun l => (⟨rid, l.id, l.amount⟩ : RecipeIngredient)) := by
  induction ls with
  | nil => rfl
  | cons a t ih => simp [List.filter_cons, ih]

lemma filter_tags_map (rid : Nat) (ts : List Nat) :
    ((ts.map (fun t => (rid, t))).filter (fun p => p.1 == rid)) =
      ts.map (fun t => (rid, t)) := by
  induction ts with
  | nil => rfl
  | cons a t ih => simp [List.filter_cons, ih]

/-- C2: a successful `updateRecipe` leaves the recipe's ingredient-line set
and tag set exactly equal to the input sets — the previous sets are deleted
wholesale, never merged. -/
theorem updateRecipe_full_replacement (db : DB) (rid : Nat) (inp : RecipeInput)
    (h : (updateRecipe db rid inp).2 = Except.ok ()) :
    recipeIngredientPairs (updateRecipe db rid inp).1 rid =
      inp.ingredients.map (fun l => (l.id, l.amount)) ∧
    recipeTagIds (updateRecipe db rid inp).1 rid = inp.tags := by
  unfold updateRecipe at h ⊢
  by_cases h1 : recipe_exists db rid = true
  · by_cases h2 : run_validation db inp = true
    · simp only [h1, h2, if_true]
      constructor
      · simp only [recipeIngredientPairs, List.filter_append,
          filter_recipe_eq_of_filter_ne, filter_lines_map, List.nil_append,
          List.map_map]
        rfl
      · simp only [recipeTagIds, List.filter_append,
          filter_fst_eq_of_filter_ne, filter_tags_map, List.nil_append,
          List.map_map]
        exact List.map_id inp.tags
    · simp [h1, h2] at h
  · simp [h1] at h

/-- Witness for C2: updating a recipe whose line set was {(1, 5), (2, 6)}
with the single line (3, 4) leaves exactly {(3, 4)} and the tag set [1]. -/
theorem updateRecipe_full_replacement_witness :
    (updateRecipe w2db 1 w2inp).2 = Except.ok () ∧
    recipeIngredientPairs (updateRecipe w2db 1 w2inp).1 1 = [(3, 4)] ∧
    recipeTagIds (updateRecipe w2db 1 w2inp).1 1 = [1] := by
  refine ⟨rfl, ?_, ?_⟩
  · simpa [w2inp] using (updateRecipe_full_replacement w2db 1 w2inp rfl).1
  · simpa [w2inp] using (updateRecipe_full_replacement w2db 1 w2inp rfl).2

lemma le_foldl_max (l : List Recipe) (init : Nat) :
    init ≤ l.foldl (fun m r => max m r.id) init := by
  induction l generalizing init with
  | nil => simp
  | cons a t ih => exact le_trans (le_max_left _ _) (ih (max init a.id))

lemma mem_le_foldl_max (l : List Recipe) (r : Recipe) (h : r ∈ l) :
    ∀ init, r.id ≤ l.foldl (fun m r => max m r.id) init := by
  induction h with
  | head t => exact fun init => le_trans (le_max_right _ _) (le_foldl_max t _)
  | tail b _ ih => exact fun init => ih _

lemma freshRecipeId_not_exists (db : DB) :
    recipe_exists db (freshRecipeId db) = false := by
  rw [Bool.eq_false_iff]
  intro hc
  rw [recipe_exists, List.any_eq_true] at hc
  obtain ⟨r, hr, hid⟩ := hc
  have hle := mem_le_foldl_max db.recipes r hr 0
  have heq : r.id = (db.recipes.foldl (fun m r => max m r.id) 0) + 1 := by
    simpa [freshRecipeId] using hid
  omega

lemma refIntegrityB_spec (db : DB) (h : refIntegrityB db = true) :
    (∀ ri ∈ db.recipeIngredients, recipe_exists db ri.recipe = true) ∧
    (∀ p ∈ db.recipeTags, recipe_exists db p.1 = true) ∧
    (∀ p ∈ db.favorites, recipe_exists db p.2 = true) ∧
    (∀ p ∈ db.shoppingCart, recipe_exists db p.2 = true) := by
  simp only [refIntegrityB, Bool.and_eq_true, List.all_eq_true] at h
  obtain ⟨⟨⟨h1, h2⟩, h3⟩, h4⟩ := h
  exact ⟨h1, h2, h3, h4⟩

lemma filter_old_lines_fresh (db : DB) (hInt : refIntegrityB db = true) :
    db.recipeIngredients.filter (fun ri => ri.recipe == freshRecipeId db) = [] := by
  rw [List.filter_eq_nil_iff]
  intro ri hri
  simp only [beq_iff_eq]
  intro he
  have h1 := (refIntegrityB_spec db hInt).1 ri hri
  rw [he, freshRecipeId_not_exists db] at h1
  cases h1

lemma filter_old_tags_fresh (db : DB) (hInt : refIntegrityB db = true) :
    db.recipeTags.filter (fun p => p.1 == freshRecipeId db) = [] := by
  rw [List.filter_eq_nil_iff]
  intro p hp
  simp only [beq_iff_eq]
  intro he
  have h1 := (refIntegrityB_spec db hInt).2.1 p hp
  rw [he, freshRecipeId_not_exists db] at h1
  cases h1

lemma find_ingredient_of_validate_id (db : DB) (i : Nat)
    (h : validate_id db i = true) :
    ∃ ing, db.ingredients.find? (fun ing => ing.id == i) = some ing ∧
      ing.id = i := by
  rw [validate_id, List.any_eq_true] at h
  obtain ⟨x, hx, hxi⟩ := h
  have hs : (db.ingredients.find? (fun ing => ing.id == i)).isSome := by
    rw [List.find?_isSome]
    exact ⟨x, hx, hxi⟩
  obtain ⟨ing, hing⟩ := Option.isSome_iff_exists.mp hs
  refine ⟨ing, hing, ?_⟩
  simpa [beq_iff_eq] using List.find?_some hing

lemma roundtrip_lines (db : DB) (rid : Nat) (ls : List IngredientInput)
    (hv : ∀ l ∈ ls, validate_id db l.id = true) :
    (((ls.map (fun l => (⟨rid, l.id, l.amount⟩ : RecipeIngredient))).filterMap
        (renderLine db)).map (fun v => (v.id, v.amount))) =
      ls.map (fun l => (l.id, l.amount)) := by
  induction ls with
  | nil => rfl
  | cons a t ih =>
      obtain ⟨ing, hfind, hid⟩ := find_ingredient_of_validate_id db a.id
        (hv a (List.mem_cons_self a t))
      have ih2 := ih (fun l hl => hv l (List.mem_cons_of_mem a hl))
      have hhead : renderLine db ⟨rid, a.id, a.amount⟩ =
          some ⟨ing.id, ing.name, ing.measurement_unit, a.amount⟩ := by
        simp [renderLine, hfind]
      rw [List.map_cons, List.filterMap_cons, hhead, List.map_cons, ih2, hid]
      simp

/-- C3: a successful `createRecipe` followed by the read path yields an
ingredient-line (id, amount) list and a tag list exactly equal to the
input lists, provided the store satisfies referential integrity. -/
theorem createRecipe_readback (db : DB) (author : Nat) (inp : RecipeInput)
    (rid : Nat) (hInt : refIntegrityB db = true)
    (h : (createRecipe db author inp).2 = Except.ok rid) :
    (get_ingredients (createRecipe db author inp).1 rid).map
        (fun v => (v.id, v.amount)) =
      inp.ingredients.map (fun l => (l.id, l.amount)) ∧
    recipeTagIds (createRecipe db author inp).1 rid = inp.tags := by
  unfold createRecipe at h ⊢
  by_cases hv : run_validation db inp = true
  · simp only [hv, if_true] at h ⊢
    have hrid : freshRecipeId db = rid := by simpa using h
    subst hrid
    have hlines : ∀ l ∈ inp.ingredients, validate_id db l.id = true := by
      simp only [run_validation, Bool.and_eq_true, List.all_eq_true] at hv
      intro l hl
      exact (hv.1.1.2 l hl).1
    constructor
    · simp only [get_ingredients, List.filter_append,
        filter_old_lines_fresh db hInt, filter_lines_map, List.nil_append]
      exact roundtrip_lines db (freshRecipeId db) inp.ingredients hlines
    · simp only [recipeTagIds, List.filter_append,
        filter_old_tags_fresh db hInt, filter_tags_map, List.nil_append,
        List.map_map]
      exact List.map_id inp.tags
  · simp [hv] at h

/-- Witness for C3: creating a recipe with lines [(1, 200), (2, 3)] and
tags [1, 2] and reading it back returns exactly those sets. -/
theorem createRecipe_readback_witness :
    refIntegrityB w3db = true ∧
    (createRecipe w3db 7 w3inp).2 = Except.ok 1 ∧
    (get_ingredients (createRecipe w3db 7 w3inp).1 1).map
        (fun v => (v.id, v.amount)) = [(1, 200), (2, 3)] ∧
    recipeTagIds (createRecipe w3db 7 w3inp).1 1 = [1, 2] := by
  refine ⟨by decide, rfl, ?_, ?_⟩
  · simpa [w3inp] using (createRecipe_readback w3db 7 w3inp 1 (by decide) rfl).1
  · simpa [w3inp] using (createRecipe_readback w3db 7 w3inp 1 (by decide) rfl).2

/-- C4: a create or update call whose ingredient list is empty or repeats
an ingredient id, or whose tag list is empty or repeats a tag id, returns
ValidationError and leaves the store unchanged, whatever the other
arguments are. -/
theorem empty_or_duplicate_rejected (db : DB) (author rid : Nat)
    (inp : RecipeInput) (hrec : recipe_exists db rid = true)
    (h : inp.ingredients = [] ∨
      ¬ (inp.ingredients.map (fun l => l.id)).Nodup ∨
      inp.tags = [] ∨ ¬ inp.tags.Nodup) :
    (createRecipe db author inp).2 = Except.error "ValidationError" ∧
    (createRecipe db author inp).1 = db ∧
    (updateRecipe db rid inp).2 = Except.error "ValidationError" ∧
    (updateRecipe db rid inp).1 = db := by
  have hval : validate inp = false := by
    rw [validate]
    rcases h with h | h | h | h <;> simp [h]
  have hrun : run_validation db inp = false := by
    simp [run_validation, hval]
  refine ⟨?_, ?_, ?_, ?_⟩ <;> simp [createRecipe, updateRecipe, hrun, hrec]

/-- Witness for C4: a payload carrying tag id 1 twice is rejected by both
operations and the store is untouched. -/
theorem empty_or_duplicate_rejected_witness :
    recipe_exists w4db 1 = true ∧
    ((createRecipe w4db 7 w4inp).2 = Except.error "ValidationError" ∧
      (createRecipe w4db 7 w4inp).1 = w4db ∧
      (updateRecipe w4db 1 w4inp).2 = Except.error "ValidationError" ∧
      (updateRecipe w4db 1 w4inp).1 = w4db) :=
  ⟨by decide, empty_or_duplicate_rejected w4db 7 1 w4inp (by decide)
    (Or.inr (Or.inr (Or.inr (by decide))))⟩

/-- C7: createRecipe is all-or-nothing: whenever any part of validation
fails — an unresolved tag id, an ingredient line with an unknown id or a
rejected amount, a cooking time failing the declared validators, or the
object-level checks — the call returns ValidationError and the store
afterwards is exactly the prior store: no recipe row, line row or tag
attachment is added. -/
theorem createRecipe_all_or_nothing (db : DB) (author : Nat)
    (inp : RecipeInput)
    (h : (∃ t ∈ inp.tags, tag_id_exists db t = false) ∨
      (∃ l ∈ inp.ingredients,
        validate_id db l.id = false ∨ validate_amount l.amount = false) ∨
      cooking_time_validators inp.cooking_time = false ∨
      validate inp = false) :
    (createRecipe db author inp).1 = db ∧
    (createRecipe db author inp).2 = Except.error "ValidationError" := by
  have hrun : run_validation db inp = false := by
    rw [Bool.eq_false_iff]
    intro hc
    simp only [run_validation, Bool.and_eq_true, List.all_eq_true] at hc
    obtain ⟨⟨⟨h1, h2⟩, h3⟩, h4⟩ := hc
    rcases h with ⟨t, ht, hf⟩ | ⟨l, hl, hf⟩ | hf | hf
    · exact absurd hf (by simp [h1 t ht])
    · rcases hf with hf | hf
      · exact absurd hf (by simp [(h2 l hl).1])
      · exact absurd hf (by simp [(h2 l hl).2])
    · exact absurd hf (by simp [h3])
    · exact absurd hf (by simp [h4])
  constructor <;> simp [createRecipe, hrun]

/-- Witness for C7: a payload whose second line references the unknown
ingredient id 99 creates nothing: the store is unchanged and the call
errors. -/
theorem createRecipe_all_or_nothing_witness :
    (createRecipe w7db 7 w7inp).1 = w7db ∧
    (createRecipe w7db 7 w7inp).2 = Except.error "ValidationError" :=
  createRecipe_all_or_nothing w7db 7 w7inp
    (Or.inr (Or.inl ⟨⟨99, 3⟩, by decide, Or.inl (by decide)⟩))

/-- C5: the claim says any amount above `MAX_AMOUNT` yields ValidationError
and nothing is persisted.  The code accepts amount 32001: the serializer's
`validate_amount` only rejects `value < 1`, and the ceiling validator on
the model is (a) declared as `MinValueValidator(MAX_AMOUNT)` despite its
own "cannot exceed 32,000" message and (b) never executed on the create
path, so the line is persisted. -/
theorem amount_ceiling_not_enforced :
    (createRecipe boundsDB 7 overAmountInp).2 = Except.ok 1 ∧
    (⟨1, 1, 32001⟩ : RecipeIngredient) ∈
      (createRecipe boundsDB 7 overAmountInp).1.recipeIngredients ∧
    ¬ ((32001 : Int) ≤ MAX_AMOUNT) := by
  refine ⟨rfl, ?_, by decide⟩
  decide

/-- C6: the claim says ValidationError occurs iff the cooking time lies
outside `[MIN_COOKING_TIME, MAX_COOKING_TIME]` (other things being valid).
The declared validators are `MinValueValidator(MIN_AMOUNT)` and
`MinValueValidator(MAX_AMOUNT)` — the second announces "cannot exceed
32,000 minutes" but bounds from below — so cooking time 32500 (outside the
interval) is accepted while 10 (inside it) is rejected. -/
theorem cooking_time_bound_misimplemented :
    (createRecipe boundsDB 7 ctHighInp).2 = Except.ok 1 ∧
    ¬ ((32500 : Int) ≤ MAX_COOKING_TIME) ∧
    (createRecipe boundsDB 7 ctLowInp).2 = Except.error "ValidationError" ∧
    (MIN_COOKING_TIME ≤ (10 : Int) ∧ (10 : Int) ≤ MAX_COOKING_TIME) := by
  exact ⟨rfl, by decide, rfl, by decide⟩

lemma addLine_keys_mem (acc : List ((String × String) × Int))
    (k : String × String) (a : Int) (k' : String × String) :
    k' ∈ (addLine acc k a).map Prod.fst ↔
      k' ∈ acc.map Prod.fst ∨ k' = k := by
  induction acc with
  | nil => simp [addLine]
  | cons p t ih =>
      obtain ⟨pk, ps⟩ := p
      by_cases h : pk = k
      · subst h
        have e : addLine ((pk, ps) :: t) pk a = (pk, ps + a) :: t := by
          simp [addLine]
        rw [e, List.map_cons, List.mem_cons, List.map_cons, List.mem_cons]
        tauto
      · have e : addLine ((pk, ps) :: t) k a = (pk, ps) :: addLine t k a := by
          simp [addLine, h]
        rw [e, List.map_cons, List.mem_cons, ih, List.map_cons, List.mem_cons]
        tauto

lemma addLine_keys_nodup (acc : List ((String × String) × Int))
    (k : String × String) (a : Int) (h : (acc.map Prod.fst).Nodup) :
    ((addLine acc k a).map Prod.fst).Nodup := by
  induction acc with
  | nil => simp [addLine]
  | cons p t ih =>
      obtain ⟨pk, ps⟩ := p
      rw [List.map_cons, List.nodup_cons] at h
      obtain ⟨hpk, ht⟩ := h
      by_cases hk : pk = k
      · subst hk
        have e : addLine ((pk, ps) :: t) pk a = (pk, ps + a) :: t := by
          simp [addLine]
        rw [e, List.map_cons, List.nodup_cons]
        exact ⟨hpk, ht⟩
      · have e : addLine ((pk, ps) :: t) k a = (pk, ps) :: addLine t k a := by
          simp [addLine, hk]
        rw [e, List.map_cons, List.nodup_cons]
        refine ⟨?_, ih ht⟩
        rw [addLine_keys_mem]
        rintro (hc | hc)
        · exact hpk hc
        · exact hk hc

lemma sumForKey_cons (p : (String × String) × Int)
    (t : List ((String × String) × Int)) (k : String × String) :
    sumForKey (p :: t) k = (if p.1 = k then p.2 else 0) + sumForKey t k := by
  by_cases h : p.1 = k <;> simp [sumForKey, List.filter_cons, h]

lemma sumForKey_addLine (acc : List ((String × String) × Int))
    (k : String × String) (a : Int) (k' : String × String) :
    sumForKey (addLine acc k a) k' =
      sumForKey acc k' + (if k = k' then a else 0) := by
  induction acc with
  | nil =>
      by_cases h : k = k' <;>
        simp [addLine, sumForKey, List.filter_cons, h]
  | cons p t ih =>
      obtain ⟨pk, ps⟩ := p
      by_cases hp : pk = k
      · subst hp
        have e : addLine ((pk, ps) :: t) pk a = (pk, ps + a) :: t := by
          simp [addLine]
        rw [e, sumForKey_cons, sumForKey_cons]
        by_cases hk : pk = k'
        · simp [hk]
          omega
        · simp [hk]
      · have e : addLine ((pk, ps) :: t) k a = (pk, ps) :: addLine t k a := by
          simp [addLine, hp]
        rw [e, sumForKey_cons, ih, sumForKey_cons]
        omega

lemma sumForKey_foldl (l acc : List ((String × String) × Int))
    (k : String × String) :
    sumForKey (l.foldl (fun acc p => addLine acc p.1 p.2) acc) k =
      sumForKey acc k + sumForKey l k := by
  induction l generalizing acc with
  | nil => simp [sumForKey]
  | cons p t ih =>
      rw [List.foldl_cons, ih, sumForKey_addLine, sumForKey_cons]
      omega

lemma mem_keys_foldl (l acc : List ((String × String) × Int))
    (k : String × String) :
    k ∈ ((l.foldl (fun acc p => addLine acc p.1 p.2) acc).map Prod.fst) ↔
      k ∈ acc.map Prod.fst ∨ k ∈ l.map Prod.fst := by
  induction l generalizing acc with
  | nil => simp
  | cons p t ih =>
      rw [List.foldl_cons, ih, addLine_keys_mem, List.map_cons, List.mem_cons]
      tauto

lemma keys_foldl_nodup (l acc : List ((String × String) × Int))
    (h : (acc.map Prod.fst).Nodup) :
    ((l.foldl (fun acc p => addLine acc p.1 p.2) acc).map Prod.fst).Nodup := by
  induction l generalizing acc with
  | nil => exact h
  | cons p t ih => exact ih _ (addLine_keys_nodup acc p.1 p.2 h)

/-- C1: the shopping-list report aggregates the cart's ingredient lines by
the (name, measurement unit) pair: its groups carry pairwise distinct
keys, one group per key occurring among the joined rows, each totalling
the amounts of that key's rows; the rendered document is the header
followed by one "name: total unit" line per group.  Concretely, two cart
recipes with a (Salt, g) line of amounts 5 and 3 give exactly the line
"Salt: 8 g", an empty cart gives the header alone, and the same name
under two units stays two groups. -/
theorem shopping_list_aggregates :
    (∀ db u, ((shoppingListGroups db u).map Prod.fst).Nodup) ∧
    (∀ db u k,
      sumForKey (shoppingListGroups db u) k = sumForKey (keyAmounts db u) k) ∧
    (∀ db u k, k ∈ (shoppingListGroups db u).map Prod.fst ↔
      k ∈ (keyAmounts db u).map Prod.fst) ∧
    (∀ db u, download_shopping_cart db u =
      "Список покупок:\n\n" ++
        String.intercalate "\n" ((shoppingListGroups db u).map formatLine)) ∧
    download_shopping_cart saltDB 1 = "Список покупок:\n\nSalt: 8 g" ∧
    download_shopping_cart emptyCartDB 1 = "Список покупок:\n\n" ∧
    download_shopping_cart saltUnitsDB 1 =
      "Список покупок:\n\nSalt: 5 g\nSalt: 3 kg" := by
  refine ⟨?_, ?_, ?_, fun db u => rfl, ?_, ?_, ?_⟩
  · intro db u
    exact keys_foldl_nodup (keyAmounts db u) [] (by simp)
  · intro db u k
    have h := sumForKey_foldl (keyAmounts db u) [] k
    have h0 : sumForKey [] k = (0 : Int) := rfl
    rw [h0] at h
    simpa [shoppingListGroups] using h
  · intro db u k
    have h := mem_keys_foldl (keyAmounts db u) [] k
    simpa [shoppingListGroups] using h
  · rfl
  · rfl
  · rfl

lemma pairCount_pos_of_mem (l : List (Nat × Nat)) (p : Nat × Nat)
    (h : p ∈ l) : 0 < pairCount l p := by
  rw [pairCount, List.length_pos]
  intro hnil
  have hm : p ∈ l.filter (fun q => q = p) := by
    rw [List.mem_filter]
    exact ⟨h, by simp⟩
  rw [hnil] at hm
  cases hm

lemma pairCount_append (l₁ l₂ : List (Nat × Nat)) (p : Nat × Nat) :
    pairCount (l₁ ++ l₂) p = pairCount l₁ p + pairCount l₂ p := by
  simp [pairCount, List.filter_append]

lemma pairCount_eq_zero (l : List (Nat × Nat)) (p : Nat × Nat) (h : p ∉ l) :
    pairCount l p = 0 := by
  rw [pairCount, List.length_eq_zero, List.filter_eq_nil_iff]
  intro q hq
  simp only [decide_eq_true_eq]
  intro he
  exact h (he ▸ hq)

lemma not_mem_filter_ne (l : List (Nat × Nat)) (p : Nat × Nat) :
    p ∉ l.filter (fun q => q != p) := by
  intro h
  rw [List.mem_filter] at h
  simp at h

/-- C8: for both membership relations and any (user, recipe) pair over an
existing recipe: adding a present pair errors and leaves the single
existing row and the store unchanged; adding an absent pair appends
exactly one row and succeeds; removing an absent pair errors and changes
nothing; removing a present pair succeeds and makes the membership query
false. -/
theorem membership_contract (db : DB) (u rid : Nat)
    (hrec : recipe_exists db rid = true)
    (huF : pairCount db.favorites (u, rid) ≤ 1)
    (huC : pairCount db.shoppingCart (u, rid) ≤ 1) :
    ((u, rid) ∈ db.favorites →
      favorite_post db u rid = (db, Except.error "AlreadyExists") ∧
      pairCount (favorite_post db u rid).1.favorites (u, rid) = 1) ∧
    ((u, rid) ∉ db.favorites →
      (favorite_post db u rid).1.favorites = db.favorites ++ [(u, rid)] ∧
      (favorite_post db u rid).2 = Except.ok () ∧
      pairCount (favorite_post db u rid).1.favorites (u, rid) = 1) ∧
    ((u, rid) ∉ db.favorites →
      favorite_erase db u rid = (db, Except.error "NotFound")) ∧
    ((u, rid) ∈ db.favorites →
      (favorite_erase db u rid).2 = Except.ok () ∧
      favorite_get (favorite_erase db u rid).1 u rid = false) ∧
    ((u, rid) ∈ db.shoppingCart →
      shopping_cart_post db u rid = (db, Except.error "AlreadyExists") ∧
      pairCount (shopping_cart_post db u rid).1.shoppingCart (u, rid) = 1) ∧
    ((u, rid) ∉ db.shoppingCart →
      (shopping_cart_post db u rid).1.shoppingCart =
        db.shoppingCart ++ [(u, rid)] ∧
      (shopping_cart_post db u rid).2 = Except.ok () ∧
      pairCount (shopping_cart_post db u rid).1.shoppingCart (u, rid) = 1) ∧
    ((u, rid) ∉ db.shoppingCart →
      shopping_cart_erase db u rid = (db, Except.error "NotFound")) ∧
    ((u, rid) ∈ db.shoppingCart →
      (shopping_cart_erase db u rid).2 = Except.ok () ∧
      shopping_cart_get (shopping_cart_erase db u rid).1 u rid = false) := by
  refine ⟨?_, ?_, ?_, ?_, ?_, ?_, ?_, ?_⟩
  · intro hmem
    have hpos := pairCount_pos_of_mem db.favorites (u, rid) hmem
    refine ⟨by simp [favorite_post, hrec, hmem], ?_⟩
    have hstate : (favorite_post db u rid).1 = db := by
      simp [favorite_post, hrec, hmem]
    rw [hstate]
    omega
  · intro hmem
    have hstate : (favorite_post db u rid).1.favorites =
        db.favorites ++ [(u, rid)] := by
      simp [favorite_post, hrec, hmem]
    refine ⟨hstate, by simp [favorite_post, hrec, hmem], ?_⟩
    rw [hstate, pairCount_append, pairCount_eq_zero db.favorites _ hmem]
    simp [pairCount]
  · intro hmem
    simp [favorite_erase, hrec, hmem]
  · intro hmem
    have hstate : (favorite_erase db u rid).1.favorites =
        db.favorites.filter (fun q => q != (u, rid)) := by
      simp [favorite_erase, hrec, hmem]
    refine ⟨by simp [favorite_erase, hrec, hmem], ?_⟩
    rw [favorite_get, hstate]
    exact decide_eq_false (not_mem_filter_ne db.favorites (u, rid))
  · intro hmem
    have hpos := pairCount_pos_of_mem db.shoppingCart (u, rid) hmem
    refine ⟨by simp [shopping_cart_post, hrec, hmem], ?_⟩
    have hstate : (shopping_cart_post db u rid).1 = db := by
      simp [shopping_cart_post, hrec, hmem]
    rw [hstate]
    omega
  · intro hmem
    have hstate : (shopping_cart_post db u rid).1.shoppingCart =
        db.shoppingCart ++ [(u, rid)] := by
      simp [shopping_cart_post, hrec, hmem]
    refine ⟨hstate, by simp [shopping_cart_post, hrec, hmem], ?_⟩
    rw [hstate, pairCount_append, pairCount_eq_zero db.shoppingCart _ hmem]
    simp [pairCount]
  · intro hmem
    simp [shopping_cart_erase, hrec, hmem]
  · intro hmem
    have hstate : (shopping_cart_erase db u rid).1.shoppingCart =
        db.shoppingCart.filter (fun q => q != (u, rid)) := by
      simp [shopping_cart_erase, hrec, hmem]
    refine ⟨by simp [shopping_cart_erase, hrec, hmem], ?_⟩
    rw [shopping_cart_get, hstate]
    exact decide_eq_false (not_mem_filter_ne db.shoppingCart (u, rid))

/-- Witness for C8: in a store where user 5 already favorited and carted
recipe 1, re-adding errors with one row kept, and removing succeeds with
the query false afterwards. -/
theorem membership_contract_witness :
    recipe_exists w8db 1 = true ∧
    (favorite_post w8db 5 1 = (w8db, Except.error "AlreadyExists") ∧
      pairCount (favorite_post w8db 5 1).1.favorites (5, 1) = 1) ∧
    ((favorite_erase w8db 5 1).2 = Except.ok () ∧
      favorite_get (favorite_erase w8db 5 1).1 5 1 = false) ∧
    ((shopping_cart_erase w8db 5 1).2 = Except.ok () ∧
      shopping_cart_get (shopping_cart_erase w8db 5 1).1 5 1 = false) := by
  refine ⟨by decide, ?_, ?_, ?_⟩
  · exact (membership_contract w8db 5 1 (by decide) (by decide)
      (by decide)).1 (by decide)
  · exact (membership_contract w8db 5 1 (by decide) (by decide)
      (by decide)).2.2.2.1 (by decide)
  · exact (membership_contract w8db 5 1 (by decide) (by decide)
      (by decide)).2.2.2.2.2.2.2 (by decide)

/-- C9: `follow(user, user)` yields SelfFollowError and leaves the store
unchanged, for every prior state of the follow relation — the self-check
comes before the already-following check. -/
theorem subscribe_self_rejected (db : DB) (u : Nat)
    (hu : user_exists db u = true) :
    subscribe db u u = (db, Except.error "SelfFollow") := by
  simp [subscribe, hu]

/-- Witness for C9: user 1 exists and already has a stale (1, 1) follow
row; subscribing to oneself still yields SelfFollowError and no change. -/
theorem subscribe_self_rejected_witness :
    user_exists w9db 1 = true ∧
    subscribe w9db 1 1 = (w9db, Except.error "SelfFollow") :=
  ⟨by decide, subscribe_self_rejected w9db 1 (by decide)⟩

lemma refIntegrityB_intro (db : DB)
    (h1 : ∀ ri ∈ db.recipeIngredients, recipe_exists db ri.recipe = true)
    (h2 : ∀ p ∈ db.recipeTags, recipe_exists db p.1 = true)
    (h3 : ∀ p ∈ db.favorites, recipe_exists db p.2 = true)
    (h4 : ∀ p ∈ db.shoppingCart, recipe_exists db p.2 = true) :
    refIntegrityB db = true := by
  simp only [refIntegrityB, Bool.and_eq_true, List.all_eq_true]
  exact ⟨⟨⟨h1, h2⟩, h3⟩, h4⟩

lemma any_id_append_left (l₁ l₂ : List Recipe) (rid : Nat)
    (h : l₁.any (fun r => r.id == rid) = true) :
    (l₁ ++ l₂).any (fun r => r.id == rid) = true := by
  rw [List.any_append, h, Bool.true_or]

lemma any_id_map_update (l : List Recipe) (rid target : Nat)
    (inp : RecipeInput) :
    ((l.map (fun r =>
        if r.id = target then
          { r with name := inp.name, text := inp.text,
                   cooking_time := inp.cooking_time }
        else r)).any (fun r => r.id == rid)) =
      l.any (fun r => r.id == rid) := by
  induction l with
  | nil => rfl
  | cons a t ih => by_cases h : a.id = target <;> simp [h, ih]

lemma any_id_filter_ne (l : List Recipe) (rid d : Nat) (hne : rid ≠ d)
    (h : l.any (fun r => r.id == rid) = true) :
    ((l.filter (fun r => r.id != d)).any (fun r => r.id == rid)) = true := by
  rw [List.any_eq_true] at h ⊢
  obtain ⟨r, hr, hid⟩ := h
  refine ⟨r, ?_, hid⟩
  rw [List.mem_filter]
  refine ⟨hr, ?_⟩
  have he : r.id = rid := by simpa using hid
  simp [he, hne]

lemma step_preserves_integrity (db : DB) (op : Op)
    (h : refIntegrityB db = true) : refIntegrityB (step db op) = true := by
  obtain ⟨h1, h2, h3, h4⟩ := refIntegrityB_spec db h
  cases op with
  | createR a inp =>
      by_cases hv : run_validation db inp = true
      · have hstep : step db (Op.createR a inp) =
            { db with
                recipes := db.recipes ++
                  [⟨freshRecipeId db, a, inp.name, inp.text, inp.cooking_time⟩],
                recipeTags := db.recipeTags ++
                  inp.tags.map (fun t => (freshRecipeId db, t)),
                recipeIngredients := db.recipeIngredients ++
                  inp.ingredients.map (fun l =>
                    ⟨freshRecipeId db, l.id, l.amount⟩) } := by
          simp [step, createRecipe, hv]
        rw [hstep]
        have hfresh : ((db.recipes ++
            [(⟨freshRecipeId db, a, inp.name, inp.text, inp.cooking_time⟩ :
              Recipe)]).any
              (fun r => r.id == freshRecipeId db)) = true := by
          rw [List.any_append]
          simp
        apply refIntegrityB_intro
        · intro ri hri
          rcases List.mem_append.mp hri with hm | hm
          · exact any_id_append_left _ _ _ (h1 ri hm)
          · obtain ⟨l, _, hl⟩ := List.mem_map.mp hm
            rw [recipe_exists]
            rw [← hl]
            exact hfresh
        · intro p hp
          rcases List.mem_append.mp hp with hm | hm
          · exact any_id_append_left _ _ _ (h2 p hm)
          · obtain ⟨t, _, ht⟩ := List.mem_map.mp hm
            rw [recipe_exists]
            rw [← ht]
            exact hfresh
        · intro p hp
          exact any_id_append_left _ _ _ (h3 p hp)
        · intro p hp
          exact any_id_append_left _ _ _ (h4 p hp)
      · have hstep : step db (Op.createR a inp) = db := by
          simp [step, createRecipe, hv]
        rw [hstep]
        exact h
  | updateR rid inp =>
      by_cases hex : recipe_exists db rid = true
      · by_cases hv : run_validation db inp = true
        · have hstep : step db (Op.updateR rid inp) =
              { db with
                  recipes := db.recipes.map (fun r =>
                    if r.id = rid then
                      { r with name := inp.name, text := inp.text,
                               cooking_time := inp.cooking_time }
                    else r),
                  recipeTags := db.recipeTags.filter (fun p => p.1 != rid) ++
                    inp.tags.map (fun t => (rid, t)),
                  recipeIngredients :=
                    db.recipeIngredients.filter (fun ri => ri.recipe != rid) ++
                      inp.ingredients.map (fun l => ⟨rid, l.id, l.amount⟩) } := by
            simp [step, updateRecipe, hex, hv]
          rw [hstep]
          have hany : ∀ x : Nat,
              ((db.recipes.map (fun r =>
                if r.id = rid then
                  { r with name := inp.name, text := inp.text,
                           cooking_time := inp.cooking_time }
                else r)).any (fun r => r.id == x)) =
              db.recipes.any (fun r => r.id == x) := by
            intro x
            exact any_id_map_update db.recipes x rid inp
          apply refIntegrityB_intro
          · intro ri hri
            rcases List.mem_append.mp hri with hm | hm
            · rw [recipe_exists, hany]
              exact h1 ri (List.mem_filter.mp hm).1
            · obtain ⟨l, _, hl⟩ := List.mem_map.mp hm
              rw [recipe_exists, hany, ← hl]
              exact hex
          · intro p hp
            rcases List.mem_append.mp hp with hm | hm
            · rw [recipe_exists, hany]
              exact h2 p (List.mem_filter.mp hm).1
            · obtain ⟨t, _, ht⟩ := List.mem_map.mp hm
              rw [recipe_exists, hany, ← ht]
              exact hex
          · intro p hp
            rw [recipe_exists, hany]
            exact h3 p hp
          · intro p hp
            rw [recipe_exists, hany]
            exact h4 p hp
        · have hstep : step db (Op.updateR rid inp) = db := by
            simp [step, updateRecipe, hex, hv]
          rw [hstep]
          exact h
      · have hstep : step db (Op.updateR rid inp) = db := by
          simp [step, updateRecipe, hex]
        rw [hstep]
        exact h
  | destroyR rid =>
      apply refIntegrityB_intro
      · intro ri hri
        simp only [step, destroyRecipe] at hri ⊢
        obtain ⟨hm, hne⟩ := List.mem_filter.mp hri
        rw [recipe_exists]
        exact any_id_filter_ne _ _ _ (by simpa using hne) (h1 ri hm)
      · intro p hp
        simp only [step, destroyRecipe] at hp ⊢
        obtain ⟨hm, hne⟩ := List.mem_filter.mp hp
        rw [recipe_exists]
        exact any_id_filter_ne _ _ _ (by simpa using hne) (h2 p hm)
      · intro p hp
        simp only [step, destroyRecipe] at hp ⊢
        obtain ⟨hm, hne⟩ := List.mem_filter.mp hp
        rw [recipe_exists]
        exact any_id_filter_ne _ _ _ (by simpa using hne) (h3 p hm)
      · intro p hp
        simp only [step, destroyRecipe] at hp ⊢
        obtain ⟨hm, hne⟩ := List.mem_filter.mp hp
        rw [recipe_exists]
        exact any_id_filter_ne _ _ _ (by simpa using hne) (h4 p hm)
  | favPost u r =>
      by_cases hex : recipe_exists db r = true
      · by_cases hmem : (u, r) ∈ db.favorites
        · have hstep : step db (Op.favPost u r) = db := by
            simp [step, favorite_post, hex, hmem]
          rw [hstep]
          exact h
        · have hstep : step db (Op.favPost u r) =
              { db with favorites := db.favorites ++ [(u, r)] } := by
            simp [step, favorite_post, hex, hmem]
          rw [hstep]
          apply refIntegrityB_intro
          · intro ri hri
            exact h1 ri hri
          · intro p hp
            exact h2 p hp
          · intro p hp
            rcases List.mem_append.mp hp with hm | hm
            · exact h3 p hm
            · rw [List.mem_singleton] at hm
              rw [hm]
              exact hex
          · intro p hp
            exact h4 p hp
      · have hstep : step db (Op.favPost u r) = db := by
          simp [step, favorite_post, hex]
        rw [hstep]
        exact h
  | favErase u r =>
      by_cases hex : recipe_exists db r = true
      · by_cases hmem : (u, r) ∈ db.favorites
        · have hstep : step db (Op.favErase u r) =
              { db with favorites :=
                  db.favorites.filter (fun q => q != (u, r)) } := by
            simp [step, favorite_erase, hex, hmem]
          rw [hstep]
          apply refIntegrityB_intro
          · intro ri hri
            exact h1 ri hri
          · intro p hp
            exact h2 p hp
          · intro p hp
            exact h3 p (List.mem_filter.mp hp).1
          · intro p hp
            exact h4 p hp
        · have hstep : step db (Op.favErase u r) = db := by
            simp [step, favorite_erase, hex, hmem]
          rw [hstep]
          exact h
      · have hstep : step db (Op.favErase u r) = db := by
          simp [step, favorite_erase, hex]
        rw [hstep]
        exact h
  | cartPost u r =>
      by_cases hex : recipe_exists db r = true
      · by_cases hmem : (u, r) ∈ db.shoppingCart
        · have hstep : step db (Op.cartPost u r) = db := by
            simp [step, shopping_cart_post, hex, hmem]
          rw [hstep]
          exact h
        · have hstep : step db (Op.cartPost u r) =
              { db with shoppingCart := db.shoppingCart ++ [(u, r)] } := by
            simp [step, shopping_cart_post, hex, hmem]
          rw [hstep]
          apply refIntegrityB_intro
          · intro ri hri
            exact h1 ri hri
          · intro p hp
            exact h2 p hp
          · intro p hp
            exact h3 p hp
          · intro p hp
            rcases List.mem_append.mp hp with hm | hm
            · exact h4 p hm
            · rw [List.mem_singleton] at hm
              rw [hm]
              exact hex
      · have hstep : step db (Op.cartPost u r) = db := by
          simp [step, shopping_cart_post, hex]
        rw [hstep]
        exact h
  | cartErase u r =>
      by_cases hex : recipe_exists db r = true
      · by_cases hmem : (u, r) ∈ db.shoppingCart
        · have hstep : step db (Op.cartErase u r) =
              { db with shoppingCart :=
                  db.shoppingCart.filter (fun q => q != (u, r)) } := by
            simp [step, shopping_cart_erase, hex, hmem]
          rw [hstep]
          apply refIntegrityB_intro
          · intro ri hri
            exact h1 ri hri
          · intro p hp
            exact h2 p hp
          · intro p hp
            exact h3 p hp
          · intro p hp
            exact h4 p (List.mem_filter.mp hp).1
        · have hstep : step db (Op.cartErase u r) = db := by
            simp [step, shopping_cart_erase, hex, hmem]
          rw [hstep]
          exact h
      · have hstep : step db (Op.cartErase u r) = db := by
          simp [step, shopping_cart_erase, hex]
        rw [hstep]
        exact h
  | subPost u t =>
      by_cases hex : user_exists db t = true
      · by_cases hself : u = t
        · have hstep : step db (Op.subPost u t) = db := by
            simp [step, subscribe, hex, hself]
          rw [hstep]
          exact h
        · by_cases hmem : (u, t) ∈ db.follows
          · have hstep : step db (Op.subPost u t) = db := by
              simp [step, subscribe, hex, hself, hmem]
            rw [hstep]
            exact h
          · have hstep : step db (Op.subPost u t) =
                { db with follows := db.follows ++ [(u, t)] } := by
              simp [step, subscribe, hex, hself, hmem]
            rw [hstep]
            apply refIntegrityB_intro
            · intro ri hri
              exact h1 ri hri
            · intro p hp
              exact h2 p hp
            · intro p hp
              exact h3 p hp
            · intro p hp
              exact h4 p hp
      · have hstep : step db (Op.subPost u t) = db := by
          simp [step, subscribe, hex]
        rw [hstep]
        exact h

lemma run_preserves_integrity (db : DB) (ops : List Op)
    (h : refIntegrityB db = true) : refIntegrityB (run db ops) = true := by
  induction ops generalizing db with
  | nil => exact h
  | cons op t ih => exact ih _ (step_preserves_integrity db op h)

/-- C10: starting from a referentially intact store, any sequence of
operations preserves the invariant that every ingredient line, tag
attachment, favorite row and cart row references an existing recipe (so
the shopping-list aggregation only ever reads lines of existing recipes),
and deleting a recipe removes every line, favorite row and cart row that
referenced it. -/
theorem cascade_delete_integrity (db0 : DB) (ops : List Op) (u rid : Nat)
    (h : refIntegrityB db0 = true) :
    refIntegrityB (run db0 ops) = true ∧
    (cartLines (run db0 ops) u).all
      (fun ri => recipe_exists (run db0 ops) ri.recipe) = true ∧
    (destroyRecipe (run db0 ops) rid).recipeIngredients.all
      (fun ri => ri.recipe != rid) = true ∧
    (destroyRecipe (run db0 ops) rid).favorites.all
      (fun p => p.2 != rid) = true ∧
    (destroyRecipe (run db0 ops) rid).shoppingCart.all
      (fun p => p.2 != rid) = true := by
  have hrun := run_preserves_integrity db0 ops h
  obtain ⟨h1, _, _, _⟩ := refIntegrityB_spec _ hrun
  refine ⟨hrun, ?_, ?_, ?_, ?_⟩
  · rw [List.all_eq_true]
    intro ri hri
    rw [cartLines, List.mem_filter] at hri
    exact h1 ri hri.1
  · rw [List.all_eq_true]
    intro ri hri
    simp only [destroyRecipe] at hri
    exact (List.mem_filter.mp hri).2
  · rw [List.all_eq_true]
    intro p hp
    simp only [destroyRecipe] at hp
    exact (List.mem_filter.mp hp).2
  · rw [List.all_eq_true]
    intro p hp
    simp only [destroyRecipe] at hp
    exact (List.mem_filter.mp hp).2

/-- Witness for C10: from an intact store, create a recipe, cart and
favorite it, then delete it; the resulting store is intact and the cart
aggregation reads only lines of existing recipes. -/
theorem cascade_delete_integrity_witness :
    refIntegrityB w10db = true ∧
    refIntegrityB (run w10db w10ops) = true ∧
    (cartLines (run w10db w10ops) 7).all
      (fun ri => recipe_exists (run w10db w10ops) ri.recipe) = true := by
  refine ⟨by decide, ?_, ?_⟩
  · exact (cascade_delete_integrity w10db w10ops 7 1 (by decide)).1
  · exact (cascade_delete_integrity w10db w10ops 7 1 (by decide)).2.1

end Foodgram
